import Mathlib

/-!
Verification development for the `transacciones` personal-finance pipeline
(modules/FinanceTracker.py, modules/WiseTracker.py, modules/utilities.py).

The Python code is shallowly embedded: pandas DataFrames become explicit
tables of cells, pandas Series/pivots become association lists and
month-by-category grids over `ℚ`, and the file system touched by the
monthly exporter becomes an explicit state record.  Missing values (NaN)
are modelled by `Value.null` / `Option`, and numeric parsing failures by
`Option ℚ`.
-/

/-! ## Cell values and numeric coercion (pandas NaN / `pd.to_numeric`) -/

/-- A DataFrame cell: a string, a number (floats modelled as `ℚ`), or a
missing value (pandas NaN / None). -/
inductive Value where
  | str (s : String)
  | num (q : ℚ)
  | null
deriving DecidableEq, Repr

/-- Interpret a run of characters as a natural number; `none` unless the
run is nonempty and all digits.  Helper for `parseFloat`. -/
def digitsVal (l : List Char) : Option ℕ :=
  if l ≠ [] ∧ l.all Char.isDigit then
    some (l.foldl (fun n c => 10 * n + (c.toNat - 48)) 0)
  else none

/-- Strip leading and trailing whitespace. -/
def trimChars (l : List Char) : List Char :=
  ((l.dropWhile Char.isWhitespace).reverse.dropWhile Char.isWhitespace).reverse

/-- An unsigned decimal mantissa: digits, optionally split by one `'.'`,
at least one digit overall. -/
def parseMantissa (cs : List Char) : Option ℚ :=
  match cs.splitOn '.' with
  | [w] => (digitsVal w).map (fun n => (n : ℚ))
  | [w, f] =>
    if w = [] ∧ f = [] then none
    else match (if w = [] then some 0 else digitsVal w),
               (if f = [] then some 0 else digitsVal f) with
      | some wn, some fn => some ((wn : ℚ) + (fn : ℚ) / 10 ^ f.length)
      | _, _ => none
  | _ => none

/-- The exponent of a float literal: optional sign, then digits. -/
def parseExp (cs : List Char) : Option ℤ :=
  match cs with
  | '-' :: t => (digitsVal t).map (fun n => -(n : ℤ))
  | '+' :: t => (digitsVal t).map (fun n => (n : ℤ))
  | t => (digitsVal t).map (fun n => (n : ℤ))

/-- Model of the numeric parser behind `pd.to_numeric(errors='coerce')`
on finite float literals: optional surrounding whitespace, optional
sign, decimal mantissa and optional `e`/`E` exponent (so `"1e5"` parses
to `100000`).  Anything else — including the non-finite literals
`inf`/`nan`, which have no `ℚ` value — coerces to NaN (`none`). -/
def parseFloat (s : String) : Option ℚ :=
  let cs := trimChars s.toList
  let sgn : ℚ := if cs.head? = some '-' then -1 else 1
  let cs := if cs.head? = some '-' ∨ cs.head? = some '+' then cs.tail else cs
  match (cs.map (fun c => if c = 'E' then 'e' else c)).splitOn 'e' with
  | [m] => (parseMantissa m).map (fun q => sgn * q)
  | [m, e] =>
    match parseMantissa m, parseExp e with
    | some mv, some ev => some (sgn * mv * (10 : ℚ) ^ ev)
    | _, _ => none
  | _ => none

/-- `pd.to_numeric(col, errors='coerce')` on one cell: numbers pass
through, strings parse or coerce to NaN, NaN stays NaN. -/
def toNumericCell (v : Value) : Value :=
  match v with
  | .num q => .num q
  | .str s => match parseFloat s with
    | some q => .num q
    | none => .null
  | .null => .null

/-- `col.fillna(d)` on one cell. -/
def fillnaCell (d : Value) (v : Value) : Value :=
  match v with
  | .null => d
  | v => v

/-! ## The unified required columns and `FinanceTracker.data_check` -/

/-- The 21 unified columns that `FinanceTracker.data_check` requires and
fills (FinanceTracker.py, `required_columns`). -/
inductive Col where
  | transactionID | status | type | startedDate | completedDate
  | description | amount | fee | currency | state | balance
  | targetAmount | targetCurrency | exchangeRate
  | reference | batch | createdBy | product | targetFee
  | targetFeeCurrency | sourcePlatform
deriving DecidableEq, Repr

/-- A raw combined table as `data_check` sees it: a row count and, for
each unified column, either `none` (column absent from the DataFrame) or
its list of cells. -/
structure RawTable where
  nrows : ℕ
  cols : Col → Option (List Value)

/-- The per-column fill applied by `data_check` to one cell, following
FinanceTracker.py lines 192-212 column by column:
text columns `fillna('')`; `Amount`, `Fee`, `Balance`, `Target Amount`,
`Target Fee` go through `pd.to_numeric(errors='coerce').fillna(0.0)`;
`Currency`, `Target Currency` and `Target Fee Currency`
`fillna(base_currency)`;
`Exchange Rate` `fillna(1.0)`; `Source Platform` `fillna('Unknown')`. -/
def colDefaultFill (base : String) (c : Col) (v : Value) : Value :=
  match c with
  | .amount | .fee | .balance | .targetAmount | .targetFee =>
    fillnaCell (.num 0) (toNumericCell v)
  | .currency | .targetCurrency | .targetFeeCurrency =>
    fillnaCell (.str base) v
  | .exchangeRate => fillnaCell (.num 1) v
  | .sourcePlatform => fillnaCell (.str "Unknown") v
  | _ => fillnaCell (.str "") v

/-- `FinanceTracker.data_check`: every required column absent from the
DataFrame is first created filled with `''` (`self.df[col] = ''`
broadcasts the empty string over all rows), then each column receives
its default fill. -/
def data_check (base : String) (t : RawTable) : RawTable :=
  { nrows := t.nrows
    cols := fun c =>
      some ((((t.cols c).getD (List.replicate t.nrows (.str ""))).map
        (colDefaultFill base c))) }

/-- Read cell `i` of column `c`; `none` when the column is absent or the
index is out of range. -/
def getCell (t : RawTable) (c : Col) (i : ℕ) : Option Value :=
  (t.cols c).bind (fun l => l[i]?)

/-! ## Strings: case-insensitive substring test (Python `in` after `.lower()`) -/

/-- `leadsList a b`: the character list `a` is an initial segment of `b`. -/
def leadsList : List Char → List Char → Bool
  | [], _ => true
  | _ :: _, [] => false
  | x :: xs, y :: ys => x = y && leadsList xs ys

/-- `occursIn a b`: the character list `a` occurs contiguously inside
`b` (Python's `a in b` on strings). -/
def occursIn : List Char → List Char → Bool
  | a, [] => leadsList a []
  | a, b@(_ :: ys) => leadsList a b || occursIn a ys

/-- Python `needle in hay` on strings. -/
def strSub (needle hay : String) : Bool :=
  occursIn needle.toList hay.toList

/-! ## Categorizer -/

/-- The category store: a JSON object, i.e. an insertion-ordered mapping
from category name to its keyword list. -/
abbrev Categories := List (String × List String)

/-- `FinanceTracker.categorize_expense`: first category (in mapping
order) with a keyword that is a case-insensitive substring of the
description; sentinel `"Others"` when none matches. -/
def categorize_expense (cats : Categories) (description : String) : String :=
  match cats with
  | [] => "Others"
  | (cat, keywords) :: rest =>
    if keywords.any (fun kw => strSub kw.toLower description.toLower) then cat
    else categorize_expense rest description

/-- `WiseTracker.categorize_expense`: same search with the Spanish
sentinel `"Otros"`. -/
def wiseCategorize (cats : Categories) (targetName : String) : String :=
  match cats with
  | [] => "Otros"
  | (cat, keywords) :: rest =>
    if keywords.any (fun kw => strSub kw.toLower targetName.toLower) then cat
    else wiseCategorize rest targetName

/-- The fields of a Wise raw row read by
`WiseTracker.add_category_column`. -/
structure WiseRow where
  id : String
  targetName : String
  reference : String

/-- `WiseTracker.add_category_column` on one row: classified from
`Reference` when `'TRANSFER' in row['ID']`, from `Target name`
otherwise. -/
def wise_add_category (cats : Categories) (r : WiseRow) : String :=
  if strSub "TRANSFER" r.id then wiseCategorize cats r.reference
  else wiseCategorize cats r.targetName

/-- The fields of the unified (FinanceTracker) row read by
`add_category_column`: classification uses only `Description`. -/
structure FTRecord where
  description : String
  transactionID : String
  reference : String

/-- `FinanceTracker.add_category_column` on one row:
`self.df['Category'] = self.df['Description'].apply(self.categorize_expense)` —
the category of a row is computed from its `Description` alone. -/
def ft_add_category (cats : Categories) (r : FTRecord) : String :=
  categorize_expense cats r.description

/-! ## Aggregation: `net_amount_per_month` and the category pivots -/

/-- A processed transaction row as the aggregation methods read it:
`Year_Month` (`none` for a NaT period, i.e. a missing or unparsable
`Completed Date`), `Amount in EUR`, `Type`, and `Category`. -/
structure Row where
  yearMonth : Option String
  amountEUR : ℚ
  type : String
  category : String
deriving DecidableEq

/-- A DataFrame at aggregation time: its column-name set plus its rows. -/
structure AggTable where
  columns : List String
  rows : List Row

/-- `income_types` of FinanceTracker.py. -/
def income_types : List String := ["IN", "DEPOSIT", "REFUND", "INCOME"]

/-- `expense_types` of FinanceTracker.py. -/
def expense_types : List String := ["OUT", "WITHDRAWAL", "PAYMENT", "EXPENSE"]

/-- Row selected by `df['Type'].str.upper().isin(income_types)`. -/
def isIncomeRow (r : Row) : Bool := income_types.contains r.type.toUpper

/-- Row selected by `df['Type'].str.upper().isin(expense_types)`. -/
def isExpenseRow (r : Row) : Bool := expense_types.contains r.type.toUpper

/-- The group keys of `df[pred].groupby('Year_Month')`: the distinct
non-null `Year_Month` values among the selected rows (pandas `groupby`
drops null keys). -/
def groupKeys (pred : Row → Bool) (rows : List Row) : List String :=
  (rows.filterMap (fun r => if pred r then r.yearMonth else none)).dedup

/-- The `['Amount in EUR'].sum()` of one group of
`df[pred].groupby('Year_Month')`. -/
def monthSum (pred : Row → Bool) (rows : List Row) (m : String) : ℚ :=
  ((rows.filter (fun r => pred r && r.yearMonth == some m)).map
    (·.amountEUR)).sum

/-- `df[pred].groupby('Year_Month')['Amount in EUR'].sum()` as an
association list from group key to group sum. -/
def groupSum (pred : Row → Bool) (rows : List Row) : List (String × ℚ) :=
  (groupKeys pred rows).map (fun m => (m, monthSum pred rows m))

/-- `a.subtract(b, fill_value=0)` on two Series: the index is the union
of both indexes, a label missing on one side takes the value 0 there. -/
def seriesSubtract (a b : List (String × ℚ)) : List (String × ℚ) :=
  ((a.map Prod.fst) ++ (b.map Prod.fst)).dedup.map
    (fun m => (m, ((a.lookup m).getD 0) - ((b.lookup m).getD 0)))

/-- The columns `net_amount_per_month` requires. -/
def requiredNetCols : List String := ["Year_Month", "Amount in EUR", "Type"]

/-- `FinanceTracker.net_amount_per_month`: raises `ValueError` naming
the missing required columns when some are absent, else returns
`incomes.subtract(expenses, fill_value=0)` of the two grouped sums. -/
def net_amount_per_month (t : AggTable) :
    Except (List String) (List (String × ℚ)) :=
  let missing := requiredNetCols.filter (fun c => !t.columns.contains c)
  if missing.isEmpty then
    .ok (seriesSubtract (groupSum isIncomeRow t.rows)
      (groupSum isExpenseRow t.rows))
  else .error missing

/-- Spec-side `income_sum(m)`: sum of `Amount in EUR` over rows whose
upper-cased `Type` is an income type and whose month is `m`. -/
def incomeSum (rows : List Row) (m : String) : ℚ :=
  ((rows.filter (fun r =>
    income_types.contains r.type.toUpper && r.yearMonth == some m)).map
    (·.amountEUR)).sum

/-- Spec-side `expense_sum(m)`: sum of `Amount in EUR` over rows whose
upper-cased `Type` is an expense type and whose month is `m`. -/
def expenseSum (rows : List Row) (m : String) : ℚ :=
  ((rows.filter (fun r =>
    expense_types.contains r.type.toUpper && r.yearMonth == some m)).map
    (·.amountEUR)).sum

/-! ## The month-by-category pivots -/

/-- A pivot table: month labels, category labels, and the cell contents;
`cell m c = none` models a position outside the frame. -/
structure Pivot where
  months : List String
  cats : List String
  cell : String → String → Option ℚ

/-- The category labels of `df[pred].groupby(['Year_Month', 'Category'])
[...].sum().unstack()`: categories of selected rows with a non-null
month (rows with a null group key are dropped by `groupby`). -/
def pivotCats (pred : Row → Bool) (rows : List Row) : List String :=
  ((rows.filter (fun r => pred r && r.yearMonth.isSome)).map
    (·.category)).dedup

/-- One cell of the grouped sum: total `Amount in EUR` of the selected
rows at month `m` and category `c`. -/
def cellSum (pred : Row → Bool) (rows : List Row) (m c : String) : ℚ :=
  ((rows.filter (fun r =>
    pred r && r.yearMonth == some m && r.category == c)).map
    (·.amountEUR)).sum

/-- `df[pred].groupby(['Year_Month', 'Category'])[amount].sum()
.unstack().fillna(0)`: dense on its own month × category grid,
absent (month, category) combinations filled with 0. -/
def pivotOf (pred : Row → Bool) (rows : List Row) : Pivot where
  months := groupKeys pred rows
  cats := pivotCats pred rows
  cell := fun m c =>
    if (groupKeys pred rows).contains m && (pivotCats pred rows).contains c
    then some (cellSum pred rows m c)
    else none

/-- `a.subtract(b, fill_value=0)` on two DataFrames: align on the union
of indexes and of columns; a cell present on one side only treats the
other side as 0; a cell present on neither side stays NaN (`none`). -/
def alignedSub (a b : Pivot) : Pivot where
  months := (a.months ++ b.months).dedup
  cats := (a.cats ++ b.cats).dedup
  cell := fun m c =>
    match a.cell m c, b.cell m c with
    | none, none => none
    | x, y => some (x.getD 0 - y.getD 0)

/-- `net_pivot.applymap(lambda x: -x if x < 0 else 0)`: every cell of
the frame is mapped; `NaN < 0` is false in Python, so a NaN cell maps
to 0. -/
def clampPivot (p : Pivot) : Pivot where
  months := p.months
  cats := p.cats
  cell := fun m c =>
    if p.months.contains m && p.cats.contains c then
      some (match p.cell m c with
        | some x => if x < 0 then -x else 0
        | none => 0)
    else none

/-- The columns `expenses_per_category_per_month` requires (with the
default `amount_column='Amount in EUR'`). -/
def requiredPivotCols : List String :=
  ["Year_Month", "Category", "Amount in EUR", "Type"]

/-- `FinanceTracker.expenses_per_category_per_month`: schema check, then
the expense pivot, the income pivot, and the clamped net pivot
`incomes_pivot.subtract(expenses_pivot, fill_value=0)
.applymap(lambda x: -x if x < 0 else 0)`. -/
def expenses_per_category_per_month (t : AggTable) :
    Except (List String) (Pivot × Pivot × Pivot) :=
  let missing := requiredPivotCols.filter (fun c => !t.columns.contains c)
  if missing.isEmpty then
    .ok (pivotOf isExpenseRow t.rows, pivotOf isIncomeRow t.rows,
      clampPivot (alignedSub (pivotOf isIncomeRow t.rows)
        (pivotOf isExpenseRow t.rows)))
  else .error missing

/-! ## `save_monthly_data`: the monthly exporter -/

/-- The slice of the file system the exporter touches: whether the
output directory exists, and the CSV files inside it (a file's content
is the row group written to it). -/
structure FileSys where
  dirExists : Bool
  files : String → Option (List Row)

/-- `group.to_csv(filepath)`: create or replace one file. -/
def writeFile (fs : FileSys) (name : String) (content : List Row) : FileSys :=
  { fs with files := fun n => if n = name then some content else fs.files n }

/-- `f"{period_str}.csv"`. -/
def monthFile (m : String) : String := m ++ ".csv"

/-- The group keys of `self.df.groupby('Year_Month')`: distinct non-null
months of the table. -/
def saveKeys (rows : List Row) : List String :=
  (rows.filterMap (·.yearMonth)).dedup

/-- The rows of one `Year_Month` group. -/
def monthGroup (rows : List Row) (m : String) : List Row :=
  rows.filter (fun r => r.yearMonth == some m)

/-- One iteration of the export loop: skip when the target file already
exists, otherwise write the group. -/
def saveStep (rows : List Row) (fs : FileSys) (m : String) : FileSys :=
  if (fs.files (monthFile m)).isSome then fs
  else writeFile fs (monthFile m) (monthGroup rows m)

/-- `FinanceTracker.save_monthly_data`: `os.makedirs(output_dir,
exist_ok=True)`, early return when `Year_Month` is absent, else one
skip-or-write step per `Year_Month` group. -/
def save_monthly_data (t : AggTable) (fs : FileSys) : FileSys :=
  let fs1 : FileSys := { fs with dirExists := true }
  if t.columns.contains "Year_Month" then
    (saveKeys t.rows).foldl (saveStep t.rows) fs1
  else fs1

/-! ## Loading: `utilities.load_expenses` and the platform adapters -/

/-- The recoverable load failures of `utilities.load_expenses`. -/
inductive LoadError where
  | fileNotFound
  | parserFailure
deriving DecidableEq

/-- A raw CSV row: column name / value pairs. -/
def RawRow := List (String × String)

/-- What reading a CSV path can produce: a parsed table, a
`FileNotFoundError`, or a `pandas.errors.ParserError`. -/
inductive ReadResult where
  | ok (rows : List RawRow)
  | missing
  | malformed

/-- The CSV files visible to the loaders. -/
def CsvFS := String → ReadResult

/-- `utilities.load_expenses`: returns the parsed table on success; on
`FileNotFoundError` or `ParserError` it catches the exception, reports
the failure and produces no table (modelled as `Except.error`, the
caller receiving `None`). -/
def load_expenses (fs : CsvFS) (path : String) :
    Except LoadError (List RawRow) :=
  match fs path with
  | .ok rows => .ok rows
  | .missing => .error .fileNotFound
  | .malformed => .error .parserFailure

/-- The static column-name map of `FinanceTracker._load_wise_data`. -/
def wiseRename (c : String) : String :=
  match c with
  | "ID" => "Transaction ID"
  | "Direction" => "Type"
  | "Created on" => "Started Date"
  | "Finished on" => "Completed Date"
  | "Source fee amount" => "Fee"
  | "Source fee currency" => "Fee Currency"
  | "Target fee amount" => "Target Fee"
  | "Target fee currency" => "Target Fee Currency"
  | "Source name" => "Source"
  | "Source amount (after fees)" => "Amount"
  | "Source currency" => "Currency"
  | "Target name" => "Description"
  | "Target amount (after fees)" => "Target Amount"
  | "Target currency" => "Target Currency"
  | "Exchange rate" => "Exchange Rate"
  | "Created by" => "Created By"
  | c => c

/-- Rename a row's columns and stamp `Source Platform`. -/
def standardizeRow (rename : String → String) (platform : String)
    (row : RawRow) : RawRow :=
  (row.map (fun p => (rename p.1, p.2))) ++ [("Source Platform", platform)]

/-- `FinanceTracker._load_wise_data`: when `load_expenses` fails (its
failure surfaces inside the `try` block) the `except` branch returns an
empty DataFrame; an empty CSV also yields an empty DataFrame; otherwise
the rows are standardized. -/
def loadWiseData (fs : CsvFS) (path : String) : List RawRow :=
  match load_expenses fs path with
  | .error _ => []
  | .ok rows =>
    if rows.isEmpty then []
    else rows.map (standardizeRow wiseRename "Wise")

/-- `FinanceTracker._load_revolut_data`: Revolut's rename map sends
every column to itself; failure and emptiness are handled as for Wise. -/
def loadRevolutData (fs : CsvFS) (path : String) : List RawRow :=
  match load_expenses fs path with
  | .error _ => []
  | .ok rows =>
    if rows.isEmpty then []
    else rows.map (standardizeRow (fun c => c) "Revolut")

/-- `FinanceTracker._load_and_combine_data` at row level: the Wise rows
followed by the Revolut rows (`pd.concat`, Wise first). -/
def loadAndCombine (fs : CsvFS) (wpath rpath : String) : List RawRow :=
  loadWiseData fs wpath ++ loadRevolutData fs rpath

/-! ## Helper lemmas -/

theorem colDefaultFill_idem (base : String) (c : Col) (v : Value) :
    colDefaultFill base c (colDefaultFill base c v) = colDefaultFill base c v := by
  cases c <;> cases v <;>
    first
      | rfl
      | (simp only [colDefaultFill, toNumericCell, fillnaCell]
         rename_i s
         cases parseFloat s <;> rfl)

/-- C3: the normalization pass `data_check` is idempotent: applying it
twice to any input table yields the same table as applying it once. -/
theorem data_check_idempotent (base : String) (t : RawTable) :
    data_check base (data_check base t) = data_check base t := by
  unfold data_check
  simp only [Option.getD_some, List.map_map]
  congr 1
  funext c
  congr 1
  exact List.map_congr_left (fun v _ => colDefaultFill_idem base c v)

theorem getCell_data_check (base : String) (t : RawTable) (c : Col) (i : ℕ)
    (v : Value) (h : getCell t c i = some v) :
    getCell (data_check base t) c i = some (colDefaultFill base c v) := by
  unfold getCell at h ⊢
  unfold data_check
  obtain ⟨l, hl, hv⟩ := Option.bind_eq_some.mp h
  simp [hl, List.getElem?_map, hv]

/-- The raw table of the C5 scenario: one row, `Amount` holding the
unparsable string `"abc"`, `Currency` missing (NaN). -/
def exampleRaw : RawTable where
  nrows := 1
  cols := fun c =>
    match c with
    | .amount => some [.str "abc"]
    | .currency => some [.null]
    | _ => none

/-- C5: after `data_check`, a record whose `Amount` is missing or holds
an unparsable string has `Amount = 0.0`, and a record whose `Currency`
is missing has `Currency` equal to the base currency; `data_check` is a
total function, so no parse failure escapes it. -/
theorem data_check_default_fill (base : String) (t : RawTable) (i : ℕ)
    (s : String) :
    (getCell t Col.amount i = some Value.null →
      getCell (data_check base t) Col.amount i = some (Value.num 0)) ∧
    (getCell t Col.amount i = some (Value.str s) → parseFloat s = none →
      getCell (data_check base t) Col.amount i = some (Value.num 0)) ∧
    (getCell t Col.currency i = some Value.null →
      getCell (data_check base t) Col.currency i = some (Value.str base)) := by
  refine ⟨fun h => ?_, fun h hp => ?_, fun h => ?_⟩
  · simpa [colDefaultFill, toNumericCell, fillnaCell] using
      getCell_data_check base t Col.amount i _ h
  · rw [getCell_data_check base t Col.amount i _ h]
    simp [colDefaultFill, toNumericCell, fillnaCell, hp]
  · simpa [colDefaultFill, fillnaCell] using
      getCell_data_check base t Col.currency i _ h

/-- C5 witness: the `"abc"` amount becomes `0.0` and the missing
currency becomes `"EUR"` on a concrete table. -/
theorem data_check_default_fill_witness :
    getCell (data_check "EUR" exampleRaw) Col.amount 0 = some (Value.num 0) ∧
    getCell (data_check "EUR" exampleRaw) Col.currency 0 = some (Value.str "EUR") :=
  ⟨(data_check_default_fill "EUR" exampleRaw 0 "abc").2.1 rfl (by decide),
   (data_check_default_fill "EUR" exampleRaw 0 "abc").2.2 rfl⟩

/-- A category entry matches the description when some keyword of its
list is a case-insensitive substring of it. -/
def catMatches (description : String) (p : String × List String) : Bool :=
  p.2.any (fun kw => strSub kw.toLower description.toLower)

/-- C4: `categorize_expense` returns the first category, in mapping
order, with a keyword that case-insensitively occurs in the
description (`List.find?` scans in order), the sentinel `"Others"` when
no keyword of any category matches; the result is always either a key
of the store or the sentinel, so categorization never fails. -/
theorem categorize_expense_first_match (cats : Categories) (d : String) :
    categorize_expense cats d =
      ((cats.find? (catMatches d)).map Prod.fst).getD "Others" ∧
    (categorize_expense cats d = "Others" ∨
      categorize_expense cats d ∈ cats.map Prod.fst) := by
  induction cats with
  | nil => exact ⟨rfl, Or.inl rfl⟩
  | cons p rest ih =>
    obtain ⟨cat, keywords⟩ := p
    by_cases h : keywords.any (fun kw => strSub kw.toLower d.toLower) = true
    · refine ⟨?_, Or.inr ?_⟩
      · simp [categorize_expense, List.find?, catMatches, h]
      · simp [categorize_expense, h]
    · have hb : catMatches d (cat, keywords) = false := by
        simpa [catMatches] using h
      have hstep : categorize_expense ((cat, keywords) :: rest) d =
          categorize_expense rest d := by
        simp [categorize_expense, h]
      refine ⟨?_, ?_⟩
      · rw [hstep, ih.1]
        simp [List.find?, hb]
      · rcases ih.2 with h1 | h1
        · exact Or.inl (hstep ▸ h1)
        · exact Or.inr (by simpa [hstep] using List.mem_cons_of_mem _ h1)

/-- C9: in the Wise variant, a row whose `ID` contains `'TRANSFER'` is
classified from its `Reference` and any other row from its
`Target name`; in the unified FinanceTracker pipeline the category
depends on `Description` alone (no such branch). -/
theorem wise_transfer_branch (cats : Categories) (r : WiseRow)
    (q q' : FTRecord) :
    (strSub "TRANSFER" r.id = true →
      wise_add_category cats r = wiseCategorize cats r.reference) ∧
    (strSub "TRANSFER" r.id = false →
      wise_add_category cats r = wiseCategorize cats r.targetName) ∧
    (q.description = q'.description →
      ft_add_category cats q = ft_add_category cats q') := by
  refine ⟨fun h => ?_, fun h => ?_, fun h => ?_⟩
  · simp [wise_add_category, h]
  · simp [wise_add_category, h]
  · simp [ft_add_category, h]

/-- C9 witness: concrete rows exercising both branches, and two unified
rows equal in `Description` but different elsewhere. -/
theorem wise_transfer_branch_witness :
    wise_add_category [("Rent", ["landlord"])] ⟨"TRANSFER-123", "Mercadona", "landlord inc"⟩ =
      wiseCategorize [("Rent", ["landlord"])] "landlord inc" ∧
    wise_add_category [("Rent", ["landlord"])] ⟨"CARD-456", "Mercadona", "landlord inc"⟩ =
      wiseCategorize [("Rent", ["landlord"])] "Mercadona" ∧
    ft_add_category [("Rent", ["landlord"])] ⟨"Local Market", "id1", "refA"⟩ =
      ft_add_category [("Rent", ["landlord"])] ⟨"Local Market", "id2", "refB"⟩ :=
  ⟨(wise_transfer_branch [("Rent", ["landlord"])]
      ⟨"TRANSFER-123", "Mercadona", "landlord inc"⟩
      ⟨"Local Market", "id1", "refA"⟩ ⟨"Local Market", "id2", "refB"⟩).1
      (by decide),
   (wise_transfer_branch [("Rent", ["landlord"])]
      ⟨"CARD-456", "Mercadona", "landlord inc"⟩
      ⟨"Local Market", "id1", "refA"⟩ ⟨"Local Market", "id2", "refB"⟩).2.1
      (by decide),
   (wise_transfer_branch [("Rent", ["landlord"])]
      ⟨"TRANSFER-123", "Mercadona", "landlord inc"⟩
      ⟨"Local Market", "id1", "refA"⟩ ⟨"Local Market", "id2", "refB"⟩).2.2 rfl⟩

/-- C8: when reading a source CSV fails (file missing or malformed),
`load_expenses` signals the recoverable `LoadError` instead of a table,
the adapter `_load_wise_data` turns that into an empty table, and the
combined pipeline carries on with the rows of the other source. -/
theorem load_failure_recovers (fs : CsvFS) (wpath rpath : String)
    (h : fs wpath = ReadResult.missing ∨ fs wpath = ReadResult.malformed) :
    (∃ e, load_expenses fs wpath = Except.error e) ∧
    loadWiseData fs wpath = [] ∧
    loadAndCombine fs wpath rpath = loadRevolutData fs rpath := by
  rcases h with h | h
  · refine ⟨⟨LoadError.fileNotFound, ?_⟩, ?_, ?_⟩ <;>
      simp [load_expenses, loadWiseData, loadAndCombine, h]
  · refine ⟨⟨LoadError.parserFailure, ?_⟩, ?_, ?_⟩ <;>
      simp [load_expenses, loadWiseData, loadAndCombine, h]

/-- A concrete CSV file system for the C8 witness: the Wise path is
missing, the Revolut path parses to one raw row. -/
def exampleFS : CsvFS := fun p =>
  if p = "revolut.csv" then ReadResult.ok [[("Type", "CARD_PAYMENT")]]
  else ReadResult.missing

/-- C8 witness: with the Wise CSV missing, loading recovers and the
combined table is exactly the Revolut rows. -/
theorem load_failure_recovers_witness :
    (∃ e, load_expenses exampleFS "wise.csv" = Except.error e) ∧
    loadWiseData exampleFS "wise.csv" = [] ∧
    loadAndCombine exampleFS "wise.csv" "revolut.csv" =
      loadRevolutData exampleFS "revolut.csv" :=
  load_failure_recovers exampleFS "wise.csv" "revolut.csv" (Or.inl rfl)

/-- C6: `net_amount_per_month` raises a schema error exactly when one of
`Year_Month`, `Amount in EUR`, `Type` is absent: with all three columns
present it returns a result, and with any absent it fails with the
(nonempty) list of exactly the missing columns. -/
theorem net_amount_schema_error (t : AggTable) :
    ((∀ c ∈ requiredNetCols, c ∈ t.columns) →
      ∃ v, net_amount_per_month t = Except.ok v) ∧
    ((∃ c ∈ requiredNetCols, c ∉ t.columns) →
      net_amount_per_month t =
        Except.error (requiredNetCols.filter (fun c => !t.columns.contains c)) ∧
      requiredNetCols.filter (fun c => !t.columns.contains c) ≠ []) := by
  constructor
  · intro h
    refine ⟨seriesSubtract (groupSum isIncomeRow t.rows)
      (groupSum isExpenseRow t.rows), ?_⟩
    simp [net_amount_per_month]
    exact h
  · rintro ⟨c, hc, hnotin⟩
    have hmem : c ∈ requiredNetCols.filter (fun c => !t.columns.contains c) := by
      simp [List.mem_filter, hc, hnotin]
    have hne : requiredNetCols.filter (fun c => !t.columns.contains c) ≠ [] := by
      intro hnil
      rw [hnil] at hmem
      exact absurd hmem (List.not_mem_nil c)
    have hcond : ¬ ∀ a ∈ requiredNetCols, a ∈ t.columns :=
      fun hall => hnotin (hall c hc)
    exact ⟨by simp [net_amount_per_month, hcond], hne⟩

/-- C6 witness: a table with all three columns yields a result; a table
with only `Year_Month` fails reporting the other two. -/
theorem net_amount_schema_error_witness :
    (∃ v, net_amount_per_month ⟨["Year_Month", "Amount in EUR", "Type"], []⟩ =
      Except.ok v) ∧
    net_amount_per_month ⟨["Year_Month"], []⟩ =
      Except.error ["Amount in EUR", "Type"] :=
  ⟨(net_amount_schema_error ⟨["Year_Month", "Amount in EUR", "Type"], []⟩).1
    (by decide),
   ((net_amount_schema_error ⟨["Year_Month"], []⟩).2 (by decide)).1⟩

theorem mem_groupKeys (pred : Row → Bool) (rows : List Row) (m : String) :
    m ∈ groupKeys pred rows ↔
      ∃ r ∈ rows, pred r = true ∧ r.yearMonth = some m := by
  unfold groupKeys
  rw [List.mem_dedup, List.mem_filterMap]
  constructor
  · rintro ⟨r, hr, hopt⟩
    by_cases hp : pred r
    · exact ⟨r, hr, hp, by simpa [hp] using hopt⟩
    · simp [hp] at hopt
  · rintro ⟨r, hr, hp, hym⟩
    exact ⟨r, hr, by simp [hp, hym]⟩

theorem monthSum_eq_zero (pred : Row → Bool) (rows : List Row) (m : String)
    (h : m ∉ groupKeys pred rows) : monthSum pred rows m = 0 := by
  unfold monthSum
  have hnil : rows.filter (fun r => pred r && r.yearMonth == some m) = [] := by
    rw [List.filter_eq_nil_iff]
    intro r hr hb
    simp only [Bool.and_eq_true, beq_iff_eq] at hb
    exact h ((mem_groupKeys pred rows m).mpr ⟨r, hr, hb.1, hb.2⟩)
  simp [hnil]

theorem lookup_keyfun (f : String → ℚ) (keys : List String) (m : String) :
    List.lookup m (keys.map (fun k => (k, f k))) =
      if m ∈ keys then some (f m) else none := by
  induction keys with
  | nil => simp
  | cons k rest ih =>
    by_cases hmk : m = k
    · subst hmk
      simp [List.lookup]
    · have hbeq : (m == k) = false := by simp [hmk]
      simp [List.lookup, hbeq, hmk, ih]

theorem lookup_groupSum (pred : Row → Bool) (rows : List Row) (m : String) :
    ((groupSum pred rows).lookup m).getD 0 = monthSum pred rows m := by
  unfold groupSum
  rw [lookup_keyfun]
  by_cases h : m ∈ groupKeys pred rows
  · simp [h]
  · simp [h, monthSum_eq_zero pred rows m h]

theorem seriesSubtract_mem_val (a b : List (String × ℚ)) (m : String) (v : ℚ)
    (h : (m, v) ∈ seriesSubtract a b) :
    v = ((a.lookup m).getD 0) - ((b.lookup m).getD 0) := by
  unfold seriesSubtract at h
  obtain ⟨k, _, heq⟩ := List.mem_map.mp h
  have h1 : k = m := congrArg Prod.fst heq
  have h2 : ((a.lookup k).getD 0) - ((b.lookup k).getD 0) = v :=
    congrArg Prod.snd heq
  subst h1
  exact h2.symm

theorem seriesSubtract_mem_key (a b : List (String × ℚ)) (m : String) :
    (∃ v, (m, v) ∈ seriesSubtract a b) ↔
      (m ∈ a.map Prod.fst ∨ m ∈ b.map Prod.fst) := by
  unfold seriesSubtract
  constructor
  · rintro ⟨v, hv⟩
    obtain ⟨k, hk, heq⟩ := List.mem_map.mp hv
    have h1 : k = m := congrArg Prod.fst heq
    subst h1
    simpa [List.mem_dedup, List.mem_append] using hk
  · intro h
    refine ⟨_, List.mem_map.mpr ⟨m, ?_, rfl⟩⟩
    simpa [List.mem_dedup, List.mem_append] using h

theorem groupSum_keys (pred : Row → Bool) (rows : List Row) :
    (groupSum pred rows).map Prod.fst = groupKeys pred rows := by
  simp [groupSum]
  exact List.map_id _

/-- C1: with the required columns present, `net_amount_per_month`
returns a mapping whose value at every month `m` it contains is
`income_sum(m) - expense_sum(m)` computed independently from the raw
rows, and which contains exactly the months carrying at least one
income-typed or expense-typed row (a month present on only one side is
kept, the other side contributing 0; rows of a type in neither set
contribute to neither sum by the definition of the two sums). -/
theorem net_amount_conservation (t : AggTable)
    (h : ∀ c ∈ requiredNetCols, c ∈ t.columns) :
    ∃ l, net_amount_per_month t = Except.ok l ∧
      (∀ m v, (m, v) ∈ l → v = incomeSum t.rows m - expenseSum t.rows m) ∧
      (∀ m, (∃ v, (m, v) ∈ l) ↔
        ∃ r ∈ t.rows, r.yearMonth = some m ∧
          (isIncomeRow r = true ∨ isExpenseRow r = true)) := by
  refine ⟨seriesSubtract (groupSum isIncomeRow t.rows)
    (groupSum isExpenseRow t.rows), ?_, ?_, ?_⟩
  · simp [net_amount_per_month]
    exact h
  · intro m v hv
    rw [seriesSubtract_mem_val _ _ _ _ hv, lookup_groupSum, lookup_groupSum]
    rfl
  · intro m
    rw [seriesSubtract_mem_key, groupSum_keys, groupSum_keys,
      mem_groupKeys, mem_groupKeys]
    constructor
    · rintro (⟨r, hr, hp, hm⟩ | ⟨r, hr, hp, hm⟩)
      · exact ⟨r, hr, hm, Or.inl hp⟩
      · exact ⟨r, hr, hm, Or.inr hp⟩
    · rintro ⟨r, hr, hm, hp | hp⟩
      · exact Or.inl ⟨r, hr, hp, hm⟩
      · exact Or.inr ⟨r, hr, hp, hm⟩

/-- C1 witness: the conservation statement at a one-row table. -/
theorem net_amount_conservation_witness :
    ∃ l, net_amount_per_month
        ⟨requiredNetCols, [⟨some "2024-01", 50, "OUT", "Groceries"⟩]⟩ =
      Except.ok l ∧
      (∀ m v, (m, v) ∈ l →
        v = incomeSum [⟨some "2024-01", 50, "OUT", "Groceries"⟩] m -
          expenseSum [⟨some "2024-01", 50, "OUT", "Groceries"⟩] m) ∧
      (∀ m, (∃ v, (m, v) ∈ l) ↔
        ∃ r ∈ [(⟨some "2024-01", 50, "OUT", "Groceries"⟩ : Row)],
          r.yearMonth = some m ∧
          (isIncomeRow r = true ∨ isExpenseRow r = true)) :=
  net_amount_conservation
    ⟨requiredNetCols, [⟨some "2024-01", 50, "OUT", "Groceries"⟩]⟩ (by decide)

theorem mem_pivotCats (pred : Row → Bool) (rows : List Row) (c : String) :
    c ∈ pivotCats pred rows ↔
      ∃ r ∈ rows, pred r = true ∧ r.yearMonth.isSome = true ∧
        r.category = c := by
  unfold pivotCats
  rw [List.mem_dedup, List.mem_map]
  constructor
  · rintro ⟨r, hr, hcat⟩
    rw [List.mem_filter] at hr
    obtain ⟨h1, h2⟩ := hr
    simp only [Bool.and_eq_true] at h2
    exact ⟨r, h1, h2.1, h2.2, hcat⟩
  · rintro ⟨r, hr, hp, hs, hcat⟩
    exact ⟨r, List.mem_filter.mpr ⟨hr, by simp [hp, hs]⟩, hcat⟩

theorem cellSum_eq_zero (pred : Row → Bool) (rows : List Row) (m c : String)
    (h : ¬(m ∈ groupKeys pred rows ∧ c ∈ pivotCats pred rows)) :
    cellSum pred rows m c = 0 := by
  unfold cellSum
  have hnil : rows.filter
      (fun r => pred r && r.yearMonth == some m && r.category == c) = [] := by
    rw [List.filter_eq_nil_iff]
    intro r hr hb
    simp only [Bool.and_eq_true, beq_iff_eq] at hb
    refine h ⟨(mem_groupKeys pred rows m).mpr ⟨r, hr, hb.1.1, hb.1.2⟩,
      (mem_pivotCats pred rows c).mpr ⟨r, hr, hb.1.1, ?_, hb.2⟩⟩
    rw [hb.1.2]
    rfl
  simp [hnil]

theorem pivotOf_cell (pred : Row → Bool) (rows : List Row) (m c : String) :
    (pivotOf pred rows).cell m c =
      if m ∈ groupKeys pred rows ∧ c ∈ pivotCats pred rows
      then some (cellSum pred rows m c) else none := by
  show (if (groupKeys pred rows).contains m && (pivotCats pred rows).contains c
    then some (cellSum pred rows m c) else none) = _
  by_cases h1 : m ∈ groupKeys pred rows <;>
    by_cases h2 : c ∈ pivotCats pred rows <;>
    simp [h1, h2]

theorem pivotOf_cell_getD (pred : Row → Bool) (rows : List Row) (m c : String) :
    ((pivotOf pred rows).cell m c).getD 0 = cellSum pred rows m c := by
  rw [pivotOf_cell]
  by_cases h : m ∈ groupKeys pred rows ∧ c ∈ pivotCats pred rows
  · simp [h]
  · simp [h, cellSum_eq_zero pred rows m c h]

theorem neg_clamp (x : ℚ) : (if x < 0 then -x else 0) = max 0 (-x) := by
  by_cases h : x < 0
  · rw [if_pos h, max_eq_right (by linarith)]
  · rw [if_neg h, max_eq_left (by linarith)]

theorem clamp_net_cell (rows : List Row) (m c : String)
    (hm : m ∈ (alignedSub (pivotOf isIncomeRow rows)
      (pivotOf isExpenseRow rows)).months)
    (hc : c ∈ (alignedSub (pivotOf isIncomeRow rows)
      (pivotOf isExpenseRow rows)).cats) :
    (clampPivot (alignedSub (pivotOf isIncomeRow rows)
      (pivotOf isExpenseRow rows))).cell m c =
      some (max 0 (cellSum isExpenseRow rows m c -
        cellSum isIncomeRow rows m c)) := by
  have hcell : (clampPivot (alignedSub (pivotOf isIncomeRow rows)
      (pivotOf isExpenseRow rows))).cell m c =
      some (match (alignedSub (pivotOf isIncomeRow rows)
          (pivotOf isExpenseRow rows)).cell m c with
        | some x => if x < 0 then -x else 0
        | none => 0) := by
    show (if (alignedSub (pivotOf isIncomeRow rows)
        (pivotOf isExpenseRow rows)).months.contains m &&
        (alignedSub (pivotOf isIncomeRow rows)
          (pivotOf isExpenseRow rows)).cats.contains c then _ else none) = _
    simp [hm, hc]
  rw [hcell]
  rcases hic : (pivotOf isIncomeRow rows).cell m c with _ | x <;>
    rcases hec : (pivotOf isExpenseRow rows).cell m c with _ | y
  · have hi : cellSum isIncomeRow rows m c = 0 := by
      have := pivotOf_cell_getD isIncomeRow rows m c
      rw [hic] at this
      simpa using this.symm
    have he : cellSum isExpenseRow rows m c = 0 := by
      have := pivotOf_cell_getD isExpenseRow rows m c
      rw [hec] at this
      simpa using this.symm
    have hnone : (alignedSub (pivotOf isIncomeRow rows)
        (pivotOf isExpenseRow rows)).cell m c = none := by
      show (match (pivotOf isIncomeRow rows).cell m c,
        (pivotOf isExpenseRow rows).cell m c with
        | none, none => (none : Option ℚ)
        | x, y => some (x.getD 0 - y.getD 0)) = none
      rw [hic, hec]
    rw [hnone]
    simp [hi, he]
  all_goals
    have hval : (alignedSub (pivotOf isIncomeRow rows)
        (pivotOf isExpenseRow rows)).cell m c =
        some (((pivotOf isIncomeRow rows).cell m c).getD 0 -
          ((pivotOf isExpenseRow rows).cell m c).getD 0) := by
      show (match (pivotOf isIncomeRow rows).cell m c,
        (pivotOf isExpenseRow rows).cell m c with
        | none, none => (none : Option ℚ)
        | x, y => some (x.getD 0 - y.getD 0)) = _
      rw [hic, hec]
  all_goals
    rw [hval, pivotOf_cell_getD, pivotOf_cell_getD]
    show some (if cellSum isIncomeRow rows m c -
      cellSum isExpenseRow rows m c < 0
      then -(cellSum isIncomeRow rows m c - cellSum isExpenseRow rows m c)
      else 0) = _
    rw [neg_clamp, neg_sub]

/-- C2: with the required columns present, every cell of the net pivot
returned by `expenses_per_category_per_month` (on its month × category
grid) equals `max 0 (expense_pivot[m,c] - income_pivot[m,c])` computed
from the raw rows, hence is nonnegative: a (month, category) whose
income exceeds its expense reports 0. -/
theorem net_pivot_clamped (t : AggTable)
    (h : ∀ c ∈ requiredPivotCols, c ∈ t.columns) :
    ∃ ep ip np, expenses_per_category_per_month t = Except.ok (ep, ip, np) ∧
      ∀ m ∈ np.months, ∀ c ∈ np.cats,
        np.cell m c = some (max 0 (cellSum isExpenseRow t.rows m c -
          cellSum isIncomeRow t.rows m c)) ∧
        ∀ q, np.cell m c = some q → 0 ≤ q := by
  refine ⟨pivotOf isExpenseRow t.rows, pivotOf isIncomeRow t.rows,
    clampPivot (alignedSub (pivotOf isIncomeRow t.rows)
      (pivotOf isExpenseRow t.rows)), ?_, ?_⟩
  · simp [expenses_per_category_per_month]
    exact h
  · intro m hm c hc
    have hform := clamp_net_cell t.rows m c hm hc
    refine ⟨hform, fun q hq => ?_⟩
    rw [hform] at hq
    obtain rfl : max 0 (cellSum isExpenseRow t.rows m c -
        cellSum isIncomeRow t.rows m c) = q := Option.some.inj hq
    exact le_max_left 0 _

/-- C2 witness: the clamp statement at a one-row table whose only
transaction is an expense. -/
theorem net_pivot_clamped_witness :
    ∃ ep ip np, expenses_per_category_per_month
        ⟨requiredPivotCols, [⟨some "2024-01", 50, "OUT", "Groceries"⟩]⟩ =
      Except.ok (ep, ip, np) ∧
      ∀ m ∈ np.months, ∀ c ∈ np.cats,
        np.cell m c = some (max 0
          (cellSum isExpenseRow [⟨some "2024-01", 50, "OUT", "Groceries"⟩] m c -
           cellSum isIncomeRow [⟨some "2024-01", 50, "OUT", "Groceries"⟩] m c)) ∧
        ∀ q, np.cell m c = some q → 0 ≤ q :=
  net_pivot_clamped
    ⟨requiredPivotCols, [⟨some "2024-01", 50, "OUT", "Groceries"⟩]⟩ (by decide)

theorem monthFile_inj (a b : String) (h : monthFile a = monthFile b) :
    a = b := by
  unfold monthFile at h
  have h2 := congrArg String.data h
  simp only [String.data_append] at h2
  exact String.ext (List.append_cancel_right h2)

theorem saveStep_preserve (rows : List Row) (fs : FileSys) (m name : String)
    (content : List Row) (h : fs.files name = some content) :
    (saveStep rows fs m).files name = some content := by
  unfold saveStep
  by_cases hex : (fs.files (monthFile m)).isSome
  · simp [hex, h]
  · simp only [hex, if_false, Bool.false_eq_true]
    show (fun n => if n = monthFile m then some (monthGroup rows m)
      else fs.files n) name = some content
    by_cases hn : name = monthFile m
    · exfalso
      rw [hn] at h
      rw [h] at hex
      simp at hex
    · simp [hn, h]

theorem fold_preserve (rows : List Row) (keys : List String) (fs : FileSys)
    (name : String) (content : List Row) (h : fs.files name = some content) :
    ((keys.foldl (saveStep rows) fs).files name) = some content := by
  induction keys generalizing fs with
  | nil => simpa using h
  | cons k rest ih =>
    rw [List.foldl_cons]
    exact ih _ (saveStep_preserve rows fs k name content h)

theorem fold_isSome (rows : List Row) (keys : List String) (fs : FileSys)
    (name : String) (h : (fs.files name).isSome) :
    ((keys.foldl (saveStep rows) fs).files name).isSome := by
  obtain ⟨c, hc⟩ := Option.isSome_iff_exists.mp h
  rw [fold_preserve rows keys fs name c hc]
  rfl

theorem fold_writes (rows : List Row) (keys : List String) (fs : FileSys)
    (m : String) (hm : m ∈ keys) :
    (((keys.foldl (saveStep rows) fs).files (monthFile m))).isSome := by
  induction keys generalizing fs with
  | nil => cases hm
  | cons k rest ih =>
    rw [List.foldl_cons]
    rcases List.mem_cons.mp hm with rfl | hm'
    · apply fold_isSome
      unfold saveStep
      by_cases hex : (fs.files (monthFile m)).isSome
      · simp [hex]
      · simp [hex, writeFile]
    · exact ih _ hm'

theorem fold_skip (rows : List Row) (keys : List String) (fs : FileSys)
    (h : ∀ m ∈ keys, (fs.files (monthFile m)).isSome) :
    keys.foldl (saveStep rows) fs = fs := by
  induction keys with
  | nil => rfl
  | cons k rest ih =>
    have hk : saveStep rows fs k = fs := by
      unfold saveStep
      simp [h k (by simp)]
    rw [List.foldl_cons, hk]
    exact ih (fun m hm => h m (List.mem_cons_of_mem _ hm))

theorem fold_dir (rows : List Row) (keys : List String) (fs : FileSys) :
    ((keys.foldl (saveStep rows) fs).dirExists) = fs.dirExists := by
  induction keys generalizing fs with
  | nil => rfl
  | cons k rest ih =>
    rw [List.foldl_cons, ih]
    unfold saveStep
    by_cases hex : (fs.files (monthFile k)).isSome <;> simp [hex, writeFile]

theorem fold_content (rows : List Row) (keys : List String) (fs : FileSys)
    (m : String) (hnd : keys.Nodup) (hm : m ∈ keys)
    (h : fs.files (monthFile m) = none) :
    ((keys.foldl (saveStep rows) fs).files (monthFile m)) =
      some (monthGroup rows m) := by
  induction keys generalizing fs with
  | nil => cases hm
  | cons k rest ih =>
    rw [List.foldl_cons]
    rcases List.mem_cons.mp hm with rfl | hm'
    · have hw : (saveStep rows fs m).files (monthFile m) =
          some (monthGroup rows m) := by
        unfold saveStep
        simp [h, writeFile]
      exact fold_preserve rows rest _ _ _ hw
    · have hk : k ≠ m := by
        rintro rfl
        exact (List.nodup_cons.mp hnd).1 hm'
    
      have hstep : (saveStep rows fs k).files (monthFile m) = none := by
        unfold saveStep
        by_cases hex : (fs.files (monthFile k)).isSome
        · simp [hex, h]
        · simp only [hex, if_false, Bool.false_eq_true]
          show (if monthFile m = monthFile k then some (monthGroup rows k)
            else fs.files (monthFile m)) = none
          rw [if_neg (fun he => hk (monthFile_inj _ _ he).symm), h]
      exact ih _ (List.nodup_cons.mp hnd).2 hm' hstep

theorem filesys_eta (x : FileSys) (h : x.dirExists = true) :
    ({ x with dirExists := true } : FileSys) = x := by
  obtain ⟨d, f⟩ := x
  simp only at h
  rw [h]

/-- C7: `save_monthly_data` marks the output directory as existing,
leaves every file that already exists byte-for-byte unchanged (so manual
edits to a partition survive and no file is ever deleted), writes the
group of each `Year_Month` whose target file is absent, and running it a
second time on the resulting state changes nothing. -/
theorem save_monthly_nondestructive (t : AggTable) (fs : FileSys) :
    (∀ name content, fs.files name = some content →
      (save_monthly_data t fs).files name = some content) ∧
    save_monthly_data t (save_monthly_data t fs) = save_monthly_data t fs ∧
    (save_monthly_data t fs).dirExists = true ∧
    ("Year_Month" ∈ t.columns → ∀ m ∈ saveKeys t.rows,
      fs.files (monthFile m) = none →
      (save_monthly_data t fs).files (monthFile m) =
        some (monthGroup t.rows m)) := by
  by_cases hcol : t.columns.contains "Year_Month"
  · have hs : ∀ g : FileSys, save_monthly_data t g =
        (saveKeys t.rows).foldl (saveStep t.rows)
          { g with dirExists := true } := by
      intro g
      show (if t.columns.contains "Year_Month" = true then
        (saveKeys t.rows).foldl (saveStep t.rows) { g with dirExists := true }
        else { g with dirExists := true }) = _
      rw [if_pos hcol]
    refine ⟨?_, ?_, ?_, ?_⟩
    · intro name content h
      rw [hs]
      exact fold_preserve _ _ _ _ _ h
    · rw [hs, hs]
      have hdir : ((saveKeys t.rows).foldl (saveStep t.rows)
          { fs with dirExists := true }).dirExists = true := by
        rw [fold_dir]
      rw [filesys_eta _ hdir]
      exact fold_skip _ _ _ (fun m hm => fold_writes _ _ _ m hm)
    · rw [hs, fold_dir]
    · intro _ m hm h
      rw [hs]
      exact fold_content t.rows (saveKeys t.rows) _ m
        (List.nodup_dedup _) hm h
  · have hs : ∀ g : FileSys, save_monthly_data t g =
        { g with dirExists := true } := by
      intro g
      show (if t.columns.contains "Year_Month" = true then
        (saveKeys t.rows).foldl (saveStep t.rows) { g with dirExists := true }
        else { g with dirExists := true }) = _
      rw [if_neg hcol]
    refine ⟨?_, ?_, ?_, ?_⟩
    · intro name content h
      rw [hs]
      exact h
    · rw [hs, hs]
    · rw [hs]
    · intro hmem
      simp at hcol
      exact absurd hmem hcol

/-- C7 witness: exporting a one-row table twice into a file system that
already holds a manually edited `2023-12.csv`. -/
theorem save_monthly_nondestructive_witness :
    ((save_monthly_data ⟨["Year_Month"], [⟨some "2024-01", 5, "OUT", "A"⟩]⟩
      ⟨false, fun n => if n = "2023-12.csv"
        then some [⟨some "2023-12", 1, "OUT", "B"⟩] else none⟩).files
        "2023-12.csv" = some [⟨some "2023-12", 1, "OUT", "B"⟩]) ∧
    save_monthly_data ⟨["Year_Month"], [⟨some "2024-01", 5, "OUT", "A"⟩]⟩
      (save_monthly_data ⟨["Year_Month"], [⟨some "2024-01", 5, "OUT", "A"⟩]⟩
        ⟨false, fun n => if n = "2023-12.csv"
          then some [⟨some "2023-12", 1, "OUT", "B"⟩] else none⟩) =
    save_monthly_data ⟨["Year_Month"], [⟨some "2024-01", 5, "OUT", "A"⟩]⟩
      ⟨false, fun n => if n = "2023-12.csv"
        then some [⟨some "2023-12", 1, "OUT", "B"⟩] else none⟩ :=
  ⟨(save_monthly_nondestructive
      ⟨["Year_Month"], [⟨some "2024-01", 5, "OUT", "A"⟩]⟩
      ⟨false, fun n => if n = "2023-12.csv"
        then some [⟨some "2023-12", 1, "OUT", "B"⟩] else none⟩).1
      "2023-12.csv" [⟨some "2023-12", 1, "OUT", "B"⟩] (by simp),
   (save_monthly_nondestructive
      ⟨["Year_Month"], [⟨some "2024-01", 5, "OUT", "A"⟩]⟩
      ⟨false, fun n => if n = "2023-12.csv"
        then some [⟨some "2023-12", 1, "OUT", "B"⟩] else none⟩).2.1⟩

theorem filter_drop_row (pre post : List Row) (r : Row) (p : Row → Bool)
    (hp : p r = false) :
    (pre ++ r :: post).filter p = (pre ++ post).filter p := by
  simp [List.filter_append, List.filter_cons, hp]

theorem filterMap_drop_row (pre post : List Row) (r : Row)
    (f : Row → Option String) (hf : f r = none) :
    (pre ++ r :: post).filterMap f = (pre ++ post).filterMap f := by
  simp [List.filterMap_append, List.filterMap_cons, hf]

/-- C10: a row whose `Year_Month` is null (its `Completed Date` was
missing or unparsable, so `pd.to_datetime(..., errors='coerce')` gave
NaT) is dropped by every `groupby('Year_Month')`: removing it changes
neither `net_amount_per_month`, nor any pivot of
`expenses_per_category_per_month`, nor what `save_monthly_data` writes. -/
theorem null_month_row_excluded (cols : List String) (pre post : List Row)
    (r : Row) (hr : r.yearMonth = none) (fs : FileSys) :
    net_amount_per_month ⟨cols, pre ++ r :: post⟩ =
      net_amount_per_month ⟨cols, pre ++ post⟩ ∧
    expenses_per_category_per_month ⟨cols, pre ++ r :: post⟩ =
      expenses_per_category_per_month ⟨cols, pre ++ post⟩ ∧
    save_monthly_data ⟨cols, pre ++ r :: post⟩ fs =
      save_monthly_data ⟨cols, pre ++ post⟩ fs := by
  have hkeys : ∀ pred : Row → Bool, groupKeys pred (pre ++ r :: post) =
      groupKeys pred (pre ++ post) := by
    intro pred
    unfold groupKeys
    rw [filterMap_drop_row]
    cases hp : pred r <;> simp [hr]
  have hmsum : ∀ (pred : Row → Bool) (m : String),
      monthSum pred (pre ++ r :: post) m = monthSum pred (pre ++ post) m := by
    intro pred m
    unfold monthSum
    rw [filter_drop_row]
    simp [hr]
  have hgs : ∀ pred : Row → Bool, groupSum pred (pre ++ r :: post) =
      groupSum pred (pre ++ post) := by
    intro pred
    unfold groupSum
    simp only [hkeys, hmsum]
  have hcats : ∀ pred : Row → Bool, pivotCats pred (pre ++ r :: post) =
      pivotCats pred (pre ++ post) := by
    intro pred
    unfold pivotCats
    rw [filter_drop_row]
    simp [hr]
  have hcsum : ∀ (pred : Row → Bool) (m c : String),
      cellSum pred (pre ++ r :: post) m c =
        cellSum pred (pre ++ post) m c := by
    intro pred m c
    unfold cellSum
    rw [filter_drop_row]
    simp [hr]
  have hpv : ∀ pred : Row → Bool, pivotOf pred (pre ++ r :: post) =
      pivotOf pred (pre ++ post) := by
    intro pred
    unfold pivotOf
    simp only [hkeys, hcats, hcsum]
  have hsk : saveKeys (pre ++ r :: post) = saveKeys (pre ++ post) := by
    unfold saveKeys
    rw [filterMap_drop_row]
    exact hr
  have hmg : ∀ m : String, monthGroup (pre ++ r :: post) m =
      monthGroup (pre ++ post) m := by
    intro m
    unfold monthGroup
    rw [filter_drop_row]
    simp [hr]
  have hss : saveStep (pre ++ r :: post) = saveStep (pre ++ post) := by
    funext g m
    unfold saveStep
    simp only [hmg]
  refine ⟨?_, ?_, ?_⟩
  · simp only [net_amount_per_month, hgs]
  · simp only [expenses_per_category_per_month, hpv]
  · simp only [save_monthly_data, hsk, hss]

/-- C10 witness: dropping a concrete null-month row between two dated
rows at a concrete file system. -/
theorem null_month_row_excluded_witness :
    net_amount_per_month ⟨["Year_Month", "Amount in EUR", "Type"],
        [⟨some "2024-01", 5, "OUT", "A"⟩, ⟨none, 7, "OUT", "A"⟩,
         ⟨some "2024-02", 3, "IN", "B"⟩]⟩ =
      net_amount_per_month ⟨["Year_Month", "Amount in EUR", "Type"],
        [⟨some "2024-01", 5, "OUT", "A"⟩, ⟨some "2024-02", 3, "IN", "B"⟩]⟩ ∧
    expenses_per_category_per_month ⟨["Year_Month", "Amount in EUR", "Type"],
        [⟨some "2024-01", 5, "OUT", "A"⟩, ⟨none, 7, "OUT", "A"⟩,
         ⟨some "2024-02", 3, "IN", "B"⟩]⟩ =
      expenses_per_category_per_month ⟨["Year_Month", "Amount in EUR", "Type"],
        [⟨some "2024-01", 5, "OUT", "A"⟩, ⟨some "2024-02", 3, "IN", "B"⟩]⟩ ∧
    save_monthly_data ⟨["Year_Month", "Amount in EUR", "Type"],
        [⟨some "2024-01", 5, "OUT", "A"⟩, ⟨none, 7, "OUT", "A"⟩,
         ⟨some "2024-02", 3, "IN", "B"⟩]⟩ ⟨false, fun _ => none⟩ =
      save_monthly_data ⟨["Year_Month", "Amount in EUR", "Type"],
        [⟨some "2024-01", 5, "OUT", "A"⟩, ⟨some "2024-02", 3, "IN", "B"⟩]⟩
        ⟨false, fun _ => none⟩ :=
  null_month_row_excluded ["Year_Month", "Amount in EUR", "Type"]
    [⟨some "2024-01", 5, "OUT", "A"⟩] [⟨some "2024-02", 3, "IN", "B"⟩]
    ⟨none, 7, "OUT", "A"⟩ rfl ⟨false, fun _ => none⟩
